import Mathlib

set_option maxRecDepth 4000

/-!
Shallow embedding of the streambot playback controller (src/app/main.py and
src/app/utils.py).

The bot keeps two global per-guild dictionaries, `guild_queues` and
`guild_current_track`, a Discord voice client (which can be connected or not,
and plays at most one audio source at a time), and the bot presence.  We model
the per-guild session state as a single record `GState`.  Blocking external
calls are modelled by oracles passed as parameters:

* `resolve : String → Option String` models `YTDLSource.from_url` —
  `none` when `from_url` raises, `some title` when it returns a player with
  that title.
* `probeOk : Bool` models whether `discord.FFmpegOpusAudio.from_probe`
  succeeds for a radio station.
* `connectOk : Bool` models whether `get_voice_client` succeeds (the invoking
  user is in a voice channel); on `false` it raises `CommandError`.

Per the discord.py contract used by the source, `voice_client.play` raises
`ClientException` when the client is already playing or not connected; a
player's `after` callback fires once its transport ends (naturally or via
`voice_client.stop()` / disconnect).  Completion events are modelled as
separate transitions carrying the handle and the callback installed by the
play call that created the player (`ytQueue` for `play_youtube_url`'s
`after_playing`, `radioLog` for `play_stream`'s logging-only `after_playing`).

The mutually recursive `play_next_in_queue` / `play_youtube_url` pair is
embedded with explicit fuel; `2 * queue.length + 2` fuel is proved sufficient
below, so the fuel never runs out on the defined totals.
-/

namespace Streambot

/-- The per-guild record stored in `guild_current_track`
(`main.py` lines 326-332): url, title, start_time, retry_count. -/
structure Track where
  url : String
  title : String
  startTime : Nat
  retryCount : Nat
deriving DecidableEq

/-- An entry of `guild_queues[guild_id]` (`main.py` line 439):
`{"url": search_query, "requester": ctx.author}`. -/
structure QueueEntry where
  url : String
  requester : String
deriving DecidableEq

/-- Which `after` callback a player was created with: `ytQueue` is
`after_playing` from `play_youtube_url` (retry/advance logic), `radioLog` is
`after_playing` from `play_stream` (logging only). -/
inductive CbKind where
  | ytQueue
  | radioLog
deriving DecidableEq

/-- One active audio transport instance: an opaque handle plus the callback
installed at `voice_client.play(source, after=...)`. -/
structure Player where
  handle : Nat
  kind : CbKind
deriving DecidableEq

/-- Session state for one guild: the pending queue, the
`guild_current_track` record, the voice client's active player (if any),
the bot presence, whether the voice client is connected, and a counter used
to mint fresh handles. -/
structure GState where
  queue : List QueueEntry
  current : Option Track
  playing : Option Player
  presence : Option String
  connected : Bool
  nextHandle : Nat
deriving DecidableEq

/-- The initial session state: nothing queued, nothing playing, no presence,
not connected. -/
def initState : GState :=
  { queue := [], current := none, playing := none, presence := none,
    connected := false, nextHandle := 0 }

mutual

/-- Embedding of `play_youtube_url` (`main.py` lines 312-367), with fuel.
Returns `some (state, raised)` where `raised` records whether the call raised
(`from_url` failure re-raises after advancing; `voice_client.play` raises
`ClientException` when already playing or not connected).  On `from_url`
success the current-track record is stored *before* `voice_client.play` is
attempted, and presence is updated only after a successful play. -/
def play_youtube_url (resolve : String → Option String) (now : Nat) :
    Nat → String → Nat → GState → Option (GState × Bool)
  | 0, _, _, _ => none
  | fuel + 1, url, retry, s =>
    match resolve url with
    | none =>
      (play_next_in_queue resolve now fuel s).map (fun s' => (s', true))
    | some title =>
      let s₁ : GState := { s with current := some ⟨url, title, now, retry⟩ }
      if s₁.playing.isSome || !s₁.connected then some (s₁, true)
      else some ({ s₁ with
                    playing := some ⟨s₁.nextHandle, CbKind.ytQueue⟩,
                    nextHandle := s₁.nextHandle + 1,
                    presence := some title }, false)

/-- Embedding of `play_next_in_queue` (`main.py` lines 288-309), with fuel.
On an empty queue it clears presence and returns; otherwise it pops the head,
calls `play_youtube_url` for it, and if that call raised, recurses. -/
def play_next_in_queue (resolve : String → Option String) (now : Nat) :
    Nat → GState → Option GState
  | 0, _ => none
  | fuel + 1, s =>
    match s.queue with
    | [] => some { s with presence := none }
    | e :: rest =>
      match play_youtube_url resolve now fuel e.url 0 { s with queue := rest } with
      | none => none
      | some (s', true) => play_next_in_queue resolve now fuel s'
      | some (s', false) => some s'

end

/-- Fuel that is always sufficient for `play_next_in_queue` /
`play_youtube_url` starting from state `s` (proved below). -/
def fuelFor (s : GState) : Nat := 2 * s.queue.length + 2

/-- Total version of `play_next_in_queue`, run with sufficient fuel. -/
def pnqT (resolve : String → Option String) (now : Nat) (s : GState) : GState :=
  (play_next_in_queue resolve now (fuelFor s) s).getD s

/-- Total version of `play_youtube_url`, run with sufficient fuel. -/
def pyuT (resolve : String → Option String) (now : Nat) (url : String)
    (retry : Nat) (s : GState) : GState × Bool :=
  (play_youtube_url resolve now (fuelFor s) url retry s).getD (s, true)

/-- The message a command path sends back to the invoking user (the final
user-visible reply of that path). -/
inductive Reply where
  | nowPlayingStation (name url : String)
  | errorMsg
  | mustBeInGuild
  | addedToQueue (position : Nat)
  | nowPlayingYt (title : String)
  | anErrorOccurred
  | nothingPlaying
  | skipping (remaining : Nat)
  | disconnected
  | notConnected
deriving DecidableEq

/-- Body of `after_playing` installed by `play_youtube_url`
(`main.py` lines 334-359): read the current `guild_current_track` record;
if it exists and `elapsed < 10` and `retry_count < 3`, schedule
`play_youtube_url` for the same url with `retry_count + 1` (the scheduled
coroutine's exception, if any, is swallowed by `run_coroutine_threadsafe`);
otherwise schedule `play_next_in_queue`. -/
def after_playing_yt (resolve : String → Option String) (now : Nat)
    (s : GState) : GState :=
  match s.current with
  | some t =>
    if now - t.startTime < 10 && t.retryCount < 3 then
      (pyuT resolve now t.url (t.retryCount + 1) s).1
    else
      pnqT resolve now s
  | none => pnqT resolve now s

/-- A completion event for the player with handle `h` and installed callback
`kind`, delivered at time `now`.  When the event fires, that player's
transport has ended, so if `h` is the active player the voice client is no
longer playing it; then the installed `after` callback runs.  The `radioLog`
callback (`main.py` lines 114-118) only logs; the `ytQueue` callback runs
`after_playing_yt`.  The source callback receives no handle and performs no
handle comparison. -/
def onCompletion (resolve : String → Option String) (h : Nat) (kind : CbKind)
    (now : Nat) (s : GState) : GState :=
  let s₀ : GState :=
    match s.playing with
    | some p => if p.handle = h then { s with playing := none } else s
    | none => s
  match kind with
  | CbKind.radioLog => s₀
  | CbKind.ytQueue => after_playing_yt resolve now s₀

/-- Embedding of `play_stream` (`main.py` lines 95-120): stop the active
player if playing; silently return when the station has no stream URL or
when `FFmpegOpusAudio.from_probe` raises (`probeOk = false`); otherwise start
a new player whose `after` callback only logs (`radioLog`). -/
def play_stream (stationUrl : String) (probeOk : Bool) (s : GState) : GState :=
  let s₁ : GState := if s.playing.isSome then { s with playing := none } else s
  if stationUrl = "" then s₁
  else if !probeOk then s₁
  else { s₁ with
          playing := some ⟨s₁.nextHandle, CbKind.radioLog⟩,
          nextHandle := s₁.nextHandle + 1 }

/-- Embedding of `play_and_notify` (`main.py` lines 131-174), the shared path
of `play`, `play_tags` and the station select menu: `get_voice_client`
(raises `CommandError` when the user is not in a voice channel, modelled by
`connectOk = false`, reported as `Error: ...`); then `play_stream`, then
`change_status` sets presence to the station name, then the caller is sent
`Now playing: station`. -/
def play_and_notify (stationName stationUrl : String) (probeOk connectOk : Bool)
    (s : GState) : GState × Reply :=
  if !connectOk then (s, Reply.errorMsg)
  else
    let s₀ : GState := { s with connected := true }
    let s₁ := play_stream stationUrl probeOk s₀
    ({ s₁ with presence := some stationName },
      Reply.nowPlayingStation stationName stationUrl)

/-- Does the first character list start with the second? (Helper for
`is_url`, written over character lists.) -/
def listStarts : List Char → List Char → Bool
  | _, [] => true
  | [], _ :: _ => false
  | c :: cs, d :: ds => c == d && listStarts cs ds

/-- Embedding of `is_url` (`main.py` lines 370-375): case-insensitive match
of `^(https?://)?(www\.)?(youtube\.com|youtu\.be|m\.youtube\.com)/.+$` over
the string's character list (the trailing `.+` demands at least one
character after the host's slash). -/
def is_url (text : String) : Bool :=
  let t := text.data.map Char.toLower
  let t := if listStarts t "https://".data then t.drop 8
           else if listStarts t "http://".data then t.drop 7
           else t
  let t := if listStarts t "www.".data then t.drop 4 else t
  (listStarts t "youtube.com/".data && t.length > 12) ||
  (listStarts t "youtu.be/".data && t.length > 9) ||
  (listStarts t "m.youtube.com/".data && t.length > 14)

/-- Embedding of the `play_yt` command (`main.py` lines 414-453):
`get_voice_client` (a `CommandError` is caught by the same `except` and
reported as `An error occurred`), build the search query, then: if the voice
client is already playing, append `{url, requester}` to the guild queue and
report the 1-based position (the new queue length); otherwise call
`play_youtube_url` — any exception it (re-)raises is caught and reported as
`An error occurred`, otherwise the player title is reported. -/
def play_yt (resolve : String → Option String) (now : Nat)
    (query requester : String) (connectOk : Bool) (s : GState) :
    GState × Reply :=
  if !connectOk then (s, Reply.anErrorOccurred)
  else
    let s₀ : GState := { s with connected := true }
    let searchQuery := if is_url query then query else "ytsearch:" ++ query
    if s₀.playing.isSome then
      let q' := s₀.queue ++ [⟨searchQuery, requester⟩]
      ({ s₀ with queue := q' }, Reply.addedToQueue q'.length)
    else
      match pyuT resolve now searchQuery 0 s₀ with
      | (s', true) => (s', Reply.anErrorOccurred)
      | (s', false) =>
        (s', Reply.nowPlayingYt ((s'.current.map Track.title).getD ""))

/-- Embedding of the `stop` command (`main.py` lines 246-263): when a voice
client exists, clear the guild queue, delete the current-track record, clear
presence, and disconnect (which stops any active player); otherwise reply
`Not connected` and change nothing. -/
def stopCmd (s : GState) : GState × Reply :=
  if s.connected then
    ({ s with queue := [], current := none, presence := none,
              playing := none, connected := false }, Reply.disconnected)
  else (s, Reply.notConnected)

/-- Embedding of the `skip` command (`main.py` lines 266-285): when no voice
client or nothing playing, reply `Nothing is playing`; otherwise report the
remaining queue length and call `voice_client.stop()` (the stopped player's
completion event fires separately).  The command itself touches neither the
queue nor the current-track record. -/
def skipCmd (s : GState) : GState × Reply :=
  if !s.connected || s.playing.isNone then (s, Reply.nothingPlaying)
  else ({ s with playing := none }, Reply.skipping s.queue.length)

/-- Embedding of the empty-channel teardown in `on_voice_state_update`
(`main.py` lines 456-477): when connected and the bot's channel has no human
members left, clear the queue and current-track record, clear presence, and
disconnect. -/
def teardown (s : GState) : GState :=
  if s.connected then
    { s with queue := [], current := none, presence := none,
             playing := none, connected := false }
  else s

/-- Embedding of the `join` command (`main.py` lines 190-197): connect via
`get_voice_client`; a `CommandError` (user not in voice, `connectOk = false`)
leaves the state unchanged. -/
def joinCmd (connectOk : Bool) (s : GState) : GState :=
  if connectOk then { s with connected := true } else s

/-- One controller operation on a session, with its oracle outcomes:
a `play_yt` command, a radio play (`play`, `play_tags` or the select menu,
all via `play_and_notify`), `skip`, `stop`, a completion event of a player,
the empty-channel teardown, or `join`. -/
inductive Op where
  | playYt (now : Nat) (query requester : String) (connectOk : Bool)
  | radio (stationName stationUrl : String) (probeOk connectOk : Bool)
  | skip
  | stop
  | completion (h : Nat) (kind : CbKind) (now : Nat)
  | teardown
  | join (connectOk : Bool)

/-- Apply one operation to the session state. -/
def applyOp (resolve : String → Option String) (op : Op) (s : GState) :
    GState :=
  match op with
  | Op.playYt now q r c => (play_yt resolve now q r c s).1
  | Op.radio n u p c => (play_and_notify n u p c s).1
  | Op.skip => (skipCmd s).1
  | Op.stop => (stopCmd s).1
  | Op.completion h k now => onCompletion resolve h k now s
  | Op.teardown => teardown s
  | Op.join c => joinCmd c s

/-- Session states reachable from the initial state by controller
operations. -/
inductive Reachable (resolve : String → Option String) : GState → Prop where
  | init : Reachable resolve initState
  | step (s : GState) (op : Op) : Reachable resolve s →
      Reachable resolve (applyOp resolve op s)

/-- One entry of the `RadioBrowser.search` result list as consumed by
`search_radio_station_by_tags` (`utils.py`): only `name` and `url_resolved`
are read; a missing or empty `url_resolved` is falsy, modelled as `""`. -/
structure RBResult where
  name : String
  url_resolved : String
deriving DecidableEq

/-- The station returned by the tag search: a `RadioConfig`'s name and
stream URL. -/
structure RadioStation where
  name : String
  stream_url : String
deriving DecidableEq

/-- The candidates remaining after the filter
`[r for r in results if r.get("url_resolved")]` (`utils.py` line 20). -/
def validResults (results : List RBResult) : List RBResult :=
  results.filter (fun r => r.url_resolved ≠ "")

/-- Embedding of `search_radio_station_by_tags` (`utils.py` lines 10-36).
The external `rb.search` call is modelled by its result list `results`;
`random.choice(valid_results)` picks uniformly among `valid_results`,
modelled by the selection index `pick % valid_results.length` — every index
is a possible outcome of the random draw. -/
def search_radio_station_by_tags (results : List RBResult) (pick : Nat) :
    Option RadioStation :=
  if results.length > 0 then
    let valid := validResults results
    if valid.isEmpty then none
    else
      let r := valid.getD (pick % valid.length) ⟨"", ""⟩
      some ⟨r.name, r.url_resolved⟩
  else none

/-- Resolution oracle for concrete runs: every url resolves, with title
`url ++ "!"`. -/
def resolveAll : String → Option String := fun u => some (u ++ "!")

/-- Resolution oracle for concrete runs: url `B` fails to resolve, every
other url resolves with title `url ++ "!"`. -/
def resolveNoB : String → Option String :=
  fun u => if u = "B" then none else some (u ++ "!")

/-- A YouTube track `A` that started at time `100` with no retries yet. -/
def trackA : Track := ⟨"A", "A!", 100, 0⟩

/-- A session playing track `A` (handle `0`) with entry `B` queued. -/
def statePlayingA : GState :=
  { queue := [⟨"B", "u"⟩], current := some trackA,
    playing := some ⟨0, CbKind.ytQueue⟩, presence := some "A!",
    connected := true, nextHandle := 1 }

/-- The same session with track `A` already retried three times. -/
def stateRetry3 : GState :=
  { statePlayingA with current := some ⟨"A", "A!", 100, 3⟩ }

/-- A session about to advance: nothing playing, queue `[B, C, D]` where `B`
will fail to resolve. -/
def stateAdvancing : GState :=
  { queue := [⟨"B", "u"⟩, ⟨"C", "u"⟩, ⟨"D", "u"⟩], current := none,
    playing := none, presence := some "old", connected := true,
    nextHandle := 0 }

/-! ### Structural lemmas about the fueled recursion -/

/-- `play_youtube_url` and `play_next_in_queue` never lengthen the pending
queue. -/
theorem play_queue_length_le (resolve : String → Option String) (now : Nat) :
    ∀ fuel : Nat,
      (∀ url retry s s' b,
          play_youtube_url resolve now fuel url retry s = some (s', b) →
            s'.queue.length ≤ s.queue.length) ∧
      (∀ s s',
          play_next_in_queue resolve now fuel s = some s' →
            s'.queue.length ≤ s.queue.length) := by
  intro fuel
  induction fuel with
  | zero =>
    constructor
    · intro url retry s s' b h
      simp [play_youtube_url] at h
    · intro s s' h
      simp [play_next_in_queue] at h
  | succ n ih =>
    obtain ⟨ihY, ihN⟩ := ih
    constructor
    · intro url retry s s' b h
      simp only [play_youtube_url] at h
      cases hr : resolve url with
      | none =>
        rw [hr] at h
        simp only [Option.map_eq_some'] at h
        obtain ⟨s₂, h₂, heq⟩ := h
        simp only [Prod.mk.injEq] at heq
        obtain ⟨rfl, rfl⟩ := heq
        exact ihN s s₂ h₂
      | some title =>
        rw [hr] at h
        simp only at h
        split at h <;>
          (simp only [Option.some.injEq, Prod.mk.injEq] at h;
           obtain ⟨rfl, rfl⟩ := h;
           simp)
    · intro s s' h
      simp only [play_next_in_queue] at h
      cases hq : s.queue with
      | nil =>
        rw [hq] at h
        simp only [Option.some.injEq] at h
        subst h
        simp
      | cons e rest =>
        rw [hq] at h
        simp only at h
        cases hp : play_youtube_url resolve now n e.url 0 { s with queue := rest } with
        | none => rw [hp] at h; simp at h
        | some p =>
          obtain ⟨s₂, b⟩ := p
          rw [hp] at h
          have hle : s₂.queue.length ≤ rest.length := by
            have := ihY e.url 0 { s with queue := rest } s₂ b hp
            simpa using this
          cases b with
          | true =>
            simp only at h
            have := ihN s₂ s' h
            have : s'.queue.length ≤ rest.length := le_trans this hle
            simp [hq]
            omega
          | false =>
            simp only [Option.some.injEq] at h
            subst h
            simp [hq]
            omega

/-- With fuel at least `2 * queue.length + 2` (resp. `+ 1`), the fueled
functions never run out of fuel. -/
theorem play_isSome (resolve : String → Option String) (now : Nat) :
    ∀ fuel : Nat,
      (∀ url retry s, 2 * s.queue.length + 2 ≤ fuel →
          (play_youtube_url resolve now fuel url retry s).isSome = true) ∧
      (∀ s, 2 * s.queue.length + 1 ≤ fuel →
          (play_next_in_queue resolve now fuel s).isSome = true) := by
  intro fuel
  induction fuel with
  | zero =>
    constructor
    · intro url retry s hle; omega
    · intro s hle; omega
  | succ n ih =>
    obtain ⟨ihY, ihN⟩ := ih
    constructor
    · intro url retry s hle
      simp only [play_youtube_url]
      cases hr : resolve url with
      | none =>
        cases hp : play_next_in_queue resolve now n s with
        | none =>
          have hN := ihN s (by omega)
          rw [hp] at hN
          simp at hN
        | some s₂ => simp [hp]
      | some title =>
        simp only
        split <;> simp
    · intro s hle
      simp only [play_next_in_queue]
      cases hq : s.queue with
      | nil => simp
      | cons e rest =>
        simp only
        have hrest : ({ s with queue := rest } : GState).queue.length = rest.length := rfl
        have hY : (play_youtube_url resolve now n e.url 0
            { s with queue := rest }).isSome = true := by
          apply ihY
          rw [hrest]
          have : s.queue.length = rest.length + 1 := by rw [hq]; simp
          omega
        cases hp : play_youtube_url resolve now n e.url 0 { s with queue := rest } with
        | none => rw [hp] at hY; simp at hY
        | some p =>
          obtain ⟨s₂, b⟩ := p
          have hle₂ : s₂.queue.length ≤ rest.length := by
            have := (play_queue_length_le resolve now n).1 e.url 0
              { s with queue := rest } s₂ b hp
            simpa using this
          cases b with
          | true =>
            simp only
            apply ihN
            have : s.queue.length = rest.length + 1 := by rw [hq]; simp
            omega
          | false => simp

/-- The total wrapper `pnqT` agrees with the fueled function at its chosen
fuel. -/
theorem pnqT_spec (resolve : String → Option String) (now : Nat) (s : GState) :
    play_next_in_queue resolve now (fuelFor s) s = some (pnqT resolve now s) := by
  have h := (play_isSome resolve now (fuelFor s)).2 s (by simp [fuelFor])
  cases hp : play_next_in_queue resolve now (fuelFor s) s with
  | none => rw [hp] at h; simp at h
  | some s' => simp [pnqT, hp]

/-- The total wrapper `pyuT` agrees with the fueled function at its chosen
fuel. -/
theorem pyuT_spec (resolve : String → Option String) (now : Nat)
    (url : String) (retry : Nat) (s : GState) :
    play_youtube_url resolve now (fuelFor s) url retry s =
      some (pyuT resolve now url retry s) := by
  have h := (play_isSome resolve now (fuelFor s)).1 url retry s (by simp [fuelFor])
  cases hp : play_youtube_url resolve now (fuelFor s) url retry s with
  | none => rw [hp] at h; simp at h
  | some p => simp [pyuT, hp]

/-- Neither `play_youtube_url` nor `play_next_in_queue` changes the
connectedness of the voice client. -/
theorem play_connected_eq (resolve : String → Option String) (now : Nat) :
    ∀ fuel : Nat,
      (∀ url retry s s' b,
          play_youtube_url resolve now fuel url retry s = some (s', b) →
            s'.connected = s.connected) ∧
      (∀ s s',
          play_next_in_queue resolve now fuel s = some s' →
            s'.connected = s.connected) := by
  intro fuel
  induction fuel with
  | zero =>
    constructor
    · intro url retry s s' b h; simp [play_youtube_url] at h
    · intro s s' h; simp [play_next_in_queue] at h
  | succ n ih =>
    obtain ⟨ihY, ihN⟩ := ih
    constructor
    · intro url retry s s' b h
      simp only [play_youtube_url] at h
      cases hr : resolve url with
      | none =>
        rw [hr] at h
        simp only [Option.map_eq_some'] at h
        obtain ⟨s₂, h₂, heq⟩ := h
        simp only [Prod.mk.injEq] at heq
        obtain ⟨rfl, rfl⟩ := heq
        exact ihN s s₂ h₂
      | some title =>
        rw [hr] at h
        simp only at h
        split at h <;>
          (simp only [Option.some.injEq, Prod.mk.injEq] at h;
           obtain ⟨rfl, rfl⟩ := h; rfl)
    · intro s s' h
      simp only [play_next_in_queue] at h
      cases hq : s.queue with
      | nil =>
        rw [hq] at h
        simp only [Option.some.injEq] at h
        subst h
        rfl
      | cons e rest =>
        rw [hq] at h
        simp only at h
        cases hp : play_youtube_url resolve now n e.url 0 { s with queue := rest } with
        | none => rw [hp] at h; simp at h
        | some p =>
          obtain ⟨s₂, b⟩ := p
          rw [hp] at h
          have h₂ : s₂.connected = s.connected :=
            ihY e.url 0 { s with queue := rest } s₂ b hp
          cases b with
          | true =>
            simp only at h
            exact (ihN s₂ s' h).trans h₂
          | false =>
            simp only [Option.some.injEq] at h
            subst h
            exact h₂

/-- Every current-track record produced by `play_youtube_url` /
`play_next_in_queue` is either the input's record unchanged, the record for
the url and retry count that `play_youtube_url` was called with, or a record
with retry count `0` (written by a queue advance). -/
theorem play_current_charac (resolve : String → Option String) (now : Nat) :
    ∀ fuel : Nat,
      (∀ url retry s s' b,
          play_youtube_url resolve now fuel url retry s = some (s', b) →
            s'.current = s.current ∨
            (∃ title, s'.current = some ⟨url, title, now, retry⟩) ∨
            (∃ t, s'.current = some t ∧ t.retryCount = 0)) ∧
      (∀ s s',
          play_next_in_queue resolve now fuel s = some s' →
            s'.current = s.current ∨
            (∃ t, s'.current = some t ∧ t.retryCount = 0)) := by
  intro fuel
  induction fuel with
  | zero =>
    constructor
    · intro url retry s s' b h; simp [play_youtube_url] at h
    · intro s s' h; simp [play_next_in_queue] at h
  | succ n ih =>
    obtain ⟨ihY, ihN⟩ := ih
    constructor
    · intro url retry s s' b h
      simp only [play_youtube_url] at h
      cases hr : resolve url with
      | none =>
        rw [hr] at h
        simp only [Option.map_eq_some'] at h
        obtain ⟨s₂, h₂, heq⟩ := h
        simp only [Prod.mk.injEq] at heq
        obtain ⟨rfl, rfl⟩ := heq
        rcases ihN s s₂ h₂ with hsame | hz
        · exact Or.inl hsame
        · exact Or.inr (Or.inr hz)
      | some title =>
        rw [hr] at h
        simp only at h
        split at h <;>
          (simp only [Option.some.injEq, Prod.mk.injEq] at h;
           obtain ⟨rfl, rfl⟩ := h;
           exact Or.inr (Or.inl ⟨title, rfl⟩))
    · intro s s' h
      simp only [play_next_in_queue] at h
      cases hq : s.queue with
      | nil =>
        rw [hq] at h
        simp only [Option.some.injEq] at h
        subst h
        exact Or.inl rfl
      | cons e rest =>
        rw [hq] at h
        simp only at h
        cases hp : play_youtube_url resolve now n e.url 0 { s with queue := rest } with
        | none => rw [hp] at h; simp at h
        | some p =>
          obtain ⟨s₂, b⟩ := p
          rw [hp] at h
          have h₂ : s₂.current = s.current ∨
              (∃ title, s₂.current = some ⟨e.url, title, now, 0⟩) ∨
              (∃ t, s₂.current = some t ∧ t.retryCount = 0) := by
            have := ihY e.url 0 { s with queue := rest } s₂ b hp
            simpa using this
          have h₂' : s₂.current = s.current ∨
              (∃ t, s₂.current = some t ∧ t.retryCount = 0) := by
            rcases h₂ with hsame | ⟨title, ht⟩ | hz
            · exact Or.inl hsame
            · exact Or.inr ⟨_, ht, rfl⟩
            · exact Or.inr hz
          cases b with
          | true =>
            simp only at h
            rcases ihN s₂ s' h with hsame | hz
            · rw [hsame]; exact h₂'
            · exact Or.inr hz
          | false =>
            simp only [Option.some.injEq] at h
            subst h
            exact h₂'

/-- Unfolding of `pyuT` when resolution succeeds: the current-track record is
written first, then `voice_client.play` either raises (already playing or not
connected) or starts a new handle and updates presence. -/
theorem pyuT_eq_of_resolve_some (resolve : String → Option String) (now : Nat)
    (url : String) (retry : Nat) (s : GState) (title : String)
    (h : resolve url = some title) :
    pyuT resolve now url retry s =
      (if s.playing.isSome || !s.connected then
        ({ s with current := some ⟨url, title, now, retry⟩ }, true)
      else
        ({ s with current := some ⟨url, title, now, retry⟩,
                  playing := some ⟨s.nextHandle, CbKind.ytQueue⟩,
                  nextHandle := s.nextHandle + 1,
                  presence := some title }, false)) := by
  have hk : fuelFor s = (2 * s.queue.length + 1) + 1 := rfl
  rw [pyuT, hk]
  simp only [play_youtube_url, h]
  split <;> simp_all

/-- Unfolding of `pnqT` on an empty queue: clear presence, nothing else. -/
theorem pnqT_eq_of_nil (resolve : String → Option String) (now : Nat)
    (s : GState) (h : s.queue = []) :
    pnqT resolve now s = { s with presence := none } := by
  have hk : fuelFor s = (2 * s.queue.length + 1) + 1 := rfl
  rw [pnqT, hk]
  simp only [play_next_in_queue, h]
  rfl

/-- Rebuilding a state with its own (absent) presence is the identity. -/
theorem presence_none_eta (s : GState) (h : s.presence = none) :
    ({ s with presence := none } : GState) = s := by
  cases s with
  | mk q c pl pr co nh =>
    simp only at h
    subst h
    rfl

/-- The retry branch of `after_playing`: on a completion event for the
current handle, with elapsed time under `10` and fewer than `3` retries so
far, the same url is restarted with the retry counter incremented, the queue
untouched. -/
theorem onCompletion_retry_eq (resolve : String → Option String)
    (h : Nat) (now : Nat) (s : GState) (t : Track) (title : String)
    (hp : s.playing = some ⟨h, CbKind.ytQueue⟩)
    (hc : s.current = some t)
    (he : now - t.startTime < 10)
    (hr : t.retryCount < 3)
    (hres : resolve t.url = some title)
    (hconn : s.connected = true) :
    (onCompletion resolve h CbKind.ytQueue now s).current
        = some ⟨t.url, title, now, t.retryCount + 1⟩ ∧
    (onCompletion resolve h CbKind.ytQueue now s).queue = s.queue ∧
    (onCompletion resolve h CbKind.ytQueue now s).playing
        = some ⟨s.nextHandle, CbKind.ytQueue⟩ := by
  have hs₀ : (match s.playing with
      | some p => if p.handle = h then { s with playing := none } else s
      | none => s) = { s with playing := none } := by
    rw [hp]
    simp
  rw [onCompletion]
  simp only [hs₀]
  rw [after_playing_yt]
  simp only [hc]
  have hcond : (now - t.startTime < 10 && t.retryCount < 3) = true := by
    simp [he, hr]
  rw [hcond]
  simp only [if_true]
  rw [pyuT_eq_of_resolve_some resolve now t.url (t.retryCount + 1) _ title hres]
  simp [hconn]

/-- The advance branch of `after_playing`: with the retry budget exhausted,
a completion event for the current handle advances the queue (it never
retries a fourth time). -/
theorem onCompletion_advance_eq (resolve : String → Option String)
    (h : Nat) (now : Nat) (s : GState) (t : Track)
    (hp : s.playing = some ⟨h, CbKind.ytQueue⟩)
    (hc : s.current = some t)
    (hr : t.retryCount = 3) :
    onCompletion resolve h CbKind.ytQueue now s =
      pnqT resolve now { s with playing := none } := by
  have hs₀ : (match s.playing with
      | some p => if p.handle = h then { s with playing := none } else s
      | none => s) = { s with playing := none } := by
    rw [hp]
    simp
  rw [onCompletion]
  simp only [hs₀]
  rw [after_playing_yt]
  simp only [hc]
  have hcond : (now - t.startTime < 10 && t.retryCount < 3) = false := by
    simp [hr]
  rw [hcond]
  simp

/-- `pnqT` preserves connectedness. -/
theorem pnqT_connected (resolve : String → Option String) (now : Nat)
    (s : GState) : (pnqT resolve now s).connected = s.connected :=
  (play_connected_eq resolve now (fuelFor s)).2 s (pnqT resolve now s)
    (pnqT_spec resolve now s)

/-- `pyuT` preserves connectedness. -/
theorem pyuT_connected (resolve : String → Option String) (now : Nat)
    (url : String) (retry : Nat) (s : GState) :
    (pyuT resolve now url retry s).1.connected = s.connected := by
  apply (play_connected_eq resolve now (fuelFor s)).1 url retry s
    (pyuT resolve now url retry s).1 (pyuT resolve now url retry s).2
  rw [← pyuT_spec resolve now url retry s]

/-- Current-track characterization, lifted to `pnqT`. -/
theorem pnqT_current_charac (resolve : String → Option String) (now : Nat)
    (s : GState) :
    (pnqT resolve now s).current = s.current ∨
    (∃ t, (pnqT resolve now s).current = some t ∧ t.retryCount = 0) :=
  (play_current_charac resolve now (fuelFor s)).2 s (pnqT resolve now s)
    (pnqT_spec resolve now s)

/-- Current-track characterization, lifted to `pyuT`. -/
theorem pyuT_current_charac (resolve : String → Option String) (now : Nat)
    (url : String) (retry : Nat) (s : GState) :
    (pyuT resolve now url retry s).1.current = s.current ∨
    (∃ title, (pyuT resolve now url retry s).1.current
        = some ⟨url, title, now, retry⟩) ∨
    (∃ t, (pyuT resolve now url retry s).1.current = some t
        ∧ t.retryCount = 0) := by
  apply (play_current_charac resolve now (fuelFor s)).1 url retry s
    (pyuT resolve now url retry s).1 (pyuT resolve now url retry s).2
  rw [← pyuT_spec resolve now url retry s]

/-- `play_stream` modifies neither the current-track record nor the pending
queue, and it also leaves presence and connectedness alone. -/
theorem play_stream_frame (stationUrl : String) (probeOk : Bool) (s : GState) :
    (play_stream stationUrl probeOk s).current = s.current ∧
    (play_stream stationUrl probeOk s).queue = s.queue ∧
    (play_stream stationUrl probeOk s).presence = s.presence ∧
    (play_stream stationUrl probeOk s).connected = s.connected := by
  by_cases h1 : s.playing.isSome <;> by_cases h2 : stationUrl = "" <;>
    by_cases h3 : probeOk <;> simp [play_stream, h1, h2, h3]

/-- `after_playing` preserves connectedness. -/
theorem after_playing_connected (resolve : String → Option String) (now : Nat)
    (s : GState) : (after_playing_yt resolve now s).connected = s.connected := by
  rw [after_playing_yt]
  cases hc : s.current with
  | none => exact pnqT_connected resolve now s
  | some t =>
    simp only
    split
    · exact pyuT_connected resolve now t.url (t.retryCount + 1) s
    · exact pnqT_connected resolve now s

/-- Completion events preserve connectedness. -/
theorem onCompletion_connected (resolve : String → Option String)
    (h : Nat) (kind : CbKind) (now : Nat) (s : GState) :
    (onCompletion resolve h kind now s).connected = s.connected := by
  rw [onCompletion.eq_def]
  have hs₀ : (match s.playing with
      | some p => if p.handle = h then { s with playing := none } else s
      | none => s).connected = s.connected := by
    cases s.playing with
    | none => rfl
    | some p => simp only; split <;> rfl
  cases kind with
  | radioLog => exact hs₀
  | ytQueue =>
    simp only
    rw [after_playing_connected]
    exact hs₀

/-- `play_yt` while something is playing: the entry is appended and its
1-based position (the new queue length) is reported; nothing else changes. -/
theorem play_yt_of_playing (resolve : String → Option String) (now : Nat)
    (q r : String) (s : GState) (hp : s.playing.isSome = true) :
    play_yt resolve now q r true s =
      ({ s with connected := true,
                queue := s.queue
                  ++ [QueueEntry.mk (if is_url q then q else "ytsearch:" ++ q) r] },
        Reply.addedToQueue
          (s.queue
            ++ [QueueEntry.mk (if is_url q then q else "ytsearch:" ++ q) r]).length) := by
  simp [play_yt, hp]

/-- `play_yt` while nothing is playing: the state is the first component of
the immediate `play_youtube_url` call on the connected state. -/
theorem play_yt_fst_of_notPlaying (resolve : String → Option String) (now : Nat)
    (q r : String) (s : GState) (hp : s.playing.isSome = false) :
    (play_yt resolve now q r true s).1 =
      (pyuT resolve now (if is_url q then q else "ytsearch:" ++ q) 0
        { s with connected := true }).1 := by
  cases hpy : pyuT resolve now (if is_url q then q else "ytsearch:" ++ q) 0
      { s with connected := true } with
  | mk s' b => cases b <;> simp [play_yt, hp, hpy]

/-- `play_yt` while nothing is playing and resolution succeeds: playback
starts immediately (fresh retry count `0`, new handle, presence updated) and
the player title is reported; the queue is not touched. -/
theorem play_yt_idle_eq (resolve : String → Option String) (now : Nat)
    (q r : String) (s : GState) (title : String) (hp : s.playing = none)
    (hres : resolve (if is_url q then q else "ytsearch:" ++ q) = some title) :
    play_yt resolve now q r true s =
      ({ s with connected := true,
                current := some ⟨if is_url q then q else "ytsearch:" ++ q,
                                  title, now, 0⟩,
                playing := some ⟨s.nextHandle, CbKind.ytQueue⟩,
                nextHandle := s.nextHandle + 1,
                presence := some title },
        Reply.nowPlayingYt title) := by
  have hps : (({ s with connected := true } : GState)).playing.isSome = false := by
    simp only [hp]
    rfl
  simp only [play_yt, Bool.not_true, Bool.false_eq_true, if_false, hps]
  rw [pyuT_eq_of_resolve_some resolve now _ 0 _ title hres]
  simp [hp]

/-- The state after `play_and_notify` with a reachable voice client: presence
is set to the station name on top of the `play_stream` result. -/
theorem play_and_notify_fst (stationName stationUrl : String)
    (probeOk : Bool) (s : GState) :
    (play_and_notify stationName stationUrl probeOk true s).1 =
      { play_stream stationUrl probeOk { s with connected := true }
          with presence := some stationName } := by
  simp [play_and_notify]

/-- Retry counters of the current track never exceed `MAX_RETRIES = 3`. -/
def RetryLe3 (s : GState) : Prop :=
  ∀ t, s.current = some t → t.retryCount ≤ 3

/-- The `after_playing` callback preserves the retry bound: a retry happens
only below the cap and increments by one, and every advance starts at `0`. -/
theorem after_playing_retryLe (resolve : String → Option String) (now : Nat)
    (s : GState) (hs : RetryLe3 s) :
    RetryLe3 (after_playing_yt resolve now s) := by
  rw [after_playing_yt]
  cases hc : s.current with
  | none =>
    intro t ht
    rcases pnqT_current_charac resolve now s with hsame | ⟨t', ht', hz⟩
    · rw [hsame, hc] at ht; exact absurd ht (by simp)
    · rw [ht'] at ht; cases ht; omega
  | some t₀ =>
    simp only
    split
    · rename_i hcond
      simp only [Bool.and_eq_true, decide_eq_true_eq] at hcond
      intro t ht
      rcases pyuT_current_charac resolve now t₀.url (t₀.retryCount + 1) s with
        hsame | ⟨title, ht'⟩ | ⟨t', ht', hz⟩
      · rw [hsame] at ht; exact hs t ht
      · rw [ht'] at ht; cases ht; simp; omega
      · rw [ht'] at ht; cases ht; omega
    · intro t ht
      rcases pnqT_current_charac resolve now s with hsame | ⟨t', ht', hz⟩
      · rw [hsame] at ht; exact hs t ht
      · rw [ht'] at ht; cases ht; omega

/-- Every controller operation preserves the retry bound. -/
theorem applyOp_retryLe (resolve : String → Option String) (op : Op)
    (s : GState) (hs : RetryLe3 s) : RetryLe3 (applyOp resolve op s) := by
  cases op with
  | playYt now q r c =>
    cases c with
    | false => simpa [applyOp, play_yt] using hs
    | true =>
      simp only [applyOp]
      cases hp : s.playing.isSome with
      | true =>
        rw [play_yt_of_playing resolve now q r s hp]
        intro t ht
        exact hs t ht
      | false =>
        rw [play_yt_fst_of_notPlaying resolve now q r s hp]
        intro t ht
        rcases pyuT_current_charac resolve now
            (if is_url q then q else "ytsearch:" ++ q) 0
            { s with connected := true } with hsame | ⟨title, ht'⟩ | ⟨t', ht', hz⟩
        · rw [hsame] at ht; exact hs t ht
        · rw [ht'] at ht
          have h₂ : (⟨if is_url q then q else "ytsearch:" ++ q, title, now, 0⟩
              : Track) = t := Option.some.inj ht
          rw [← h₂]
          exact Nat.zero_le 3
        · rw [ht'] at ht
          have h₂ : t' = t := Option.some.inj ht
          rw [← h₂]
          omega
  | radio n u p c =>
    cases c with
    | false => simpa [applyOp, play_and_notify] using hs
    | true =>
      simp only [applyOp]
      rw [play_and_notify_fst]
      intro t ht
      have hcur := (play_stream_frame u p { s with connected := true }).1
      simp only at ht
      rw [hcur] at ht
      exact hs t ht
  | skip =>
    simp only [applyOp, skipCmd]
    split
    · exact hs
    · intro t ht; exact hs t ht
  | stop =>
    simp only [applyOp, stopCmd]
    split
    · intro t ht; exact absurd ht (by simp)
    · exact hs
  | completion h k now =>
    simp only [applyOp, onCompletion.eq_def]
    have hs₀ : RetryLe3 (match s.playing with
        | some p => if p.handle = h then { s with playing := none } else s
        | none => s) := by
      cases s.playing with
      | none => exact hs
      | some p =>
        simp only
        split
        · intro t ht; exact hs t ht
        · exact hs
    cases k with
    | radioLog => exact hs₀
    | ytQueue => exact after_playing_retryLe resolve now _ hs₀
  | teardown =>
    simp only [applyOp, teardown]
    split
    · intro t ht; exact absurd ht (by simp)
    · exact hs
  | join c =>
    simp only [applyOp, joinCmd]
    split
    · intro t ht; exact hs t ht
    · exact hs

/-- Every reachable session state satisfies the retry bound. -/
theorem reachable_retryLe (resolve : String → Option String) (s : GState)
    (hs : Reachable resolve s) : RetryLe3 s := by
  induction hs with
  | init => intro t ht; exact absurd ht (by simp [initState])
  | step s op _ ih => exact applyOp_retryLe resolve op s ih

/-- While the voice client is disconnected, the session is fully cleared:
empty queue, no current-track record, no presence, no active player. -/
def DiscClear (s : GState) : Prop :=
  s.connected = false →
    s.queue = [] ∧ s.current = none ∧ s.presence = none ∧ s.playing = none

/-- Every controller operation preserves `DiscClear`: the only transitions to
a disconnected state (`stop`, empty-channel teardown) clear everything first,
and a completion event on a cleared disconnected state is a no-op. -/
theorem applyOp_discClear (resolve : String → Option String) (op : Op)
    (s : GState) (hs : DiscClear s) : DiscClear (applyOp resolve op s) := by
  cases op with
  | playYt now q r c =>
    cases c with
    | false => simpa [applyOp, play_yt] using hs
    | true =>
      simp only [applyOp]
      cases hp : s.playing.isSome with
      | true =>
        rw [play_yt_of_playing resolve now q r s hp]
        intro hcon
        exact absurd hcon (by simp)
      | false =>
        rw [play_yt_fst_of_notPlaying resolve now q r s hp]
        intro hcon
        rw [pyuT_connected] at hcon
        exact absurd hcon (by simp)
  | radio n u p c =>
    cases c with
    | false => simpa [applyOp, play_and_notify] using hs
    | true =>
      simp only [applyOp]
      rw [play_and_notify_fst]
      intro hcon
      simp only at hcon
      rw [(play_stream_frame u p { s with connected := true }).2.2.2] at hcon
      exact absurd hcon (by simp)
  | skip =>
    simp only [applyOp, skipCmd]
    split
    · exact hs
    · rename_i hcond
      simp only [Bool.or_eq_true, Bool.not_eq_true', Option.isNone_iff_eq_none,
        not_or] at hcond
      intro hcon
      exact absurd hcon (by simp [hcond.1])
  | stop =>
    simp only [applyOp, stopCmd]
    split
    · intro _; exact ⟨rfl, rfl, rfl, rfl⟩
    · exact hs
  | completion h k now =>
    simp only [applyOp]
    intro hcon
    rw [onCompletion_connected] at hcon
    obtain ⟨hq, hc, hpr, hpl⟩ := hs hcon
    have hs₀ : (match s.playing with
        | some p => if p.handle = h then { s with playing := none } else s
        | none => s) = s := by
      rw [hpl]
    rw [onCompletion.eq_def]
    simp only [hs₀]
    cases k with
    | radioLog => exact ⟨hq, hc, hpr, hpl⟩
    | ytQueue =>
      simp only [after_playing_yt, hc]
      rw [pnqT_eq_of_nil resolve now s hq]
      rw [presence_none_eta s hpr]
      exact ⟨hq, hc, hpr, hpl⟩
  | teardown =>
    simp only [applyOp, teardown]
    split
    · intro _; exact ⟨rfl, rfl, rfl, rfl⟩
    · exact hs
  | join c =>
    simp only [applyOp, joinCmd]
    split
    · intro hcon; exact absurd hcon (by simp)
    · exact hs

/-- Every reachable session state satisfies `DiscClear`. -/
theorem reachable_discClear (resolve : String → Option String) (s : GState)
    (hs : Reachable resolve s) : DiscClear s := by
  induction hs with
  | init => intro _; exact ⟨rfl, rfl, rfl, rfl⟩
  | step s op _ ih => exact applyOp_discClear resolve op s ih

/-- If the `after_playing` callback leaves a current track whose url differs
from the input's current url, that track was written by a queue advance and
carries retry count `0`. -/
theorem after_playing_fresh_zero (resolve : String → Option String) (now : Nat)
    (s : GState) (t' : Track)
    (hc : (after_playing_yt resolve now s).current = some t')
    (hdiff : ∀ t₀, s.current = some t₀ → t'.url ≠ t₀.url) :
    t'.retryCount = 0 := by
  rw [after_playing_yt] at hc
  cases hsc : s.current with
  | none =>
    rw [hsc] at hc
    simp only at hc
    rcases pnqT_current_charac resolve now s with hsame | ⟨t₂, ht₂, hz⟩
    · rw [hsame, hsc] at hc; exact absurd hc (by simp)
    · rw [ht₂] at hc; rw [← Option.some.inj hc]; exact hz
  | some t₀ =>
    rw [hsc] at hc
    simp only at hc
    by_cases hcond : (now - t₀.startTime < 10 && t₀.retryCount < 3) = true
    · rw [if_pos hcond] at hc
      rcases pyuT_current_charac resolve now t₀.url (t₀.retryCount + 1) s with
        hsame | ⟨title, ht₂⟩ | ⟨t₂, ht₂, hz⟩
      · rw [hsame, hsc] at hc
        have ht' : t₀ = t' := Option.some.inj hc
        exact absurd (by rw [ht']) (hdiff t₀ hsc)
      · rw [ht₂] at hc
        have ht' : (⟨t₀.url, title, now, t₀.retryCount + 1⟩ : Track) = t' :=
          Option.some.inj hc
        exact absurd (by rw [← ht']) (hdiff t₀ hsc)
      · rw [ht₂] at hc; rw [← Option.some.inj hc]; exact hz
    · rw [if_neg hcond] at hc
      rcases pnqT_current_charac resolve now s with hsame | ⟨t₂, ht₂, hz⟩
      · rw [hsame, hsc] at hc
        have ht' : t₀ = t' := Option.some.inj hc
        exact absurd (by rw [ht']) (hdiff t₀ hsc)
      · rw [ht₂] at hc; rw [← Option.some.inj hc]; exact hz

/-- Whenever an operation makes a track with a different url current, that
track starts with retry count `0`: retries keep the url, and every fresh
start (immediate play or queue advance) passes `retry_count = 0`. -/
theorem applyOp_fresh_zero (resolve : String → Option String) (op : Op)
    (s : GState) (t' : Track)
    (hc : (applyOp resolve op s).current = some t')
    (hdiff : ∀ t₀, s.current = some t₀ → t'.url ≠ t₀.url) :
    t'.retryCount = 0 := by
  have hkeep : (applyOp resolve op s).current = s.current → False := by
    intro hs
    rw [hs] at hc
    exact hdiff t' hc rfl
  cases op with
  | playYt now q r c =>
    cases c with
    | false => exact absurd (by simp [applyOp, play_yt]) hkeep
    | true =>
      simp only [applyOp] at hc hkeep
      cases hp : s.playing.isSome with
      | true =>
        rw [play_yt_of_playing resolve now q r s hp] at hkeep
        exact absurd rfl hkeep
      | false =>
        rw [play_yt_fst_of_notPlaying resolve now q r s hp] at hc
        rcases pyuT_current_charac resolve now
            (if is_url q then q else "ytsearch:" ++ q) 0
            { s with connected := true } with hsame | ⟨title, ht₂⟩ | ⟨t₂, ht₂, hz⟩
        · rw [play_yt_fst_of_notPlaying resolve now q r s hp] at hkeep
          exact absurd hsame hkeep
        · rw [ht₂] at hc
          have ht' : (⟨if is_url q then q else "ytsearch:" ++ q, title, now, 0⟩
              : Track) = t' := Option.some.inj hc
          rw [← ht']
        · rw [ht₂] at hc; rw [← Option.some.inj hc]; exact hz
  | radio n u p c =>
    cases c with
    | false => exact absurd (by simp [applyOp, play_and_notify]) hkeep
    | true =>
      refine absurd ?_ hkeep
      simp only [applyOp]
      rw [play_and_notify_fst]
      simpa using (play_stream_frame u p { s with connected := true }).1
  | skip =>
    refine absurd ?_ hkeep
    simp only [applyOp, skipCmd]
    split <;> rfl
  | stop =>
    simp only [applyOp, stopCmd] at hc
    cases hs : s.connected with
    | true => rw [hs] at hc; simp at hc
    | false =>
      rw [hs] at hc
      simp only [Bool.false_eq_true, if_false] at hc
      exact absurd rfl (hdiff t' hc)
  | completion h k now =>
    simp only [applyOp, onCompletion.eq_def] at hc
    have hs₀c : (match s.playing with
        | some p => if p.handle = h then { s with playing := none } else s
        | none => s).current = s.current := by
      cases s.playing with
      | none => rfl
      | some p => simp only; split <;> rfl
    cases k with
    | radioLog =>
      simp only at hc
      rw [hs₀c] at hc
      exact absurd rfl (hdiff t' hc)
    | ytQueue =>
      simp only at hc
      apply after_playing_fresh_zero resolve now _ t' hc
      intro t₀ ht₀
      rw [hs₀c] at ht₀
      exact hdiff t₀ ht₀
  | teardown =>
    simp only [applyOp, teardown] at hc
    split at hc
    · simp at hc
    · exact absurd rfl (hdiff t' hc)
  | join c =>
    refine absurd ?_ hkeep
    simp only [applyOp, joinCmd]
    split <;> rfl

/-! ### Claim theorems -/

/-- C1 (counterexample): in a session playing track `A` for 3 seconds with
retry count `0` and queue `[B]`, `skip` stops the handle and the stopped
handle's completion event then *retries* `A` (retry count becomes `1`, queue
head `B` is not popped), instead of advancing — refuting the claim that
`Skip` never results in a retry of the stopped track. -/
theorem skip_short_track_triggers_retry :
    (onCompletion resolveAll 0 CbKind.ytQueue 103 (skipCmd statePlayingA).1).current
        = some ⟨"A", "A!", 103, 1⟩ ∧
    (onCompletion resolveAll 0 CbKind.ytQueue 103 (skipCmd statePlayingA).1).queue
        = [⟨"B", "u"⟩] := by
  decide

/-- C2 (counterexample): a completion event whose handle (`7`) does not match
the session's current handle (`0`) is *not* ignored: it reads the current
record and performs a retry, bumping the current track's retry count to `1`
and changing the session state — refuting the stale-handle guard claim. -/
theorem stale_completion_not_ignored :
    statePlayingA.playing = some ⟨0, CbKind.ytQueue⟩ ∧
    (onCompletion resolveAll 7 CbKind.ytQueue 102 statePlayingA).current
        = some ⟨"A", "A!", 102, 1⟩ ∧
    onCompletion resolveAll 7 CbKind.ytQueue 102 statePlayingA ≠ statePlayingA := by
  decide

/-- C3 (counterexample): when `FFmpegOpusAudio.from_probe` fails for a radio
station, `play_stream` swallows the error, no player is started, and yet
`play_and_notify` still sets presence to the station and tells the caller
`Now playing` — the failure is not surfaced and the session is reported as
playing. -/
theorem failed_station_start_reported_as_playing :
    play_and_notify "JazzFM" "http://radio/x" false true initState =
      ({ initState with connected := true, presence := some "JazzFM" },
        Reply.nowPlayingStation "JazzFM" "http://radio/x") := by
  decide

/-- C6 (counterexample): advancing on queue `[B, C, D]` where `B` fails to
resolve pops `B`, starts `C` (handle `0`), but then the second advance
triggered by the re-raised exception also pops `D` (whose start fails since
`C` is playing, overwriting the current-track record with `D`) and finally
clears presence on the emptied queue — not "exactly that entry is skipped
and the next head entry is attempted". -/
theorem advance_failure_double_pops :
    pnqT resolveNoB 500 stateAdvancing =
      { queue := [], current := some ⟨"D", "D!", 500, 0⟩,
        playing := some ⟨0, CbKind.ytQueue⟩, presence := none,
        connected := true, nextHandle := 1 } := by
  decide

/-- C4: a completion event for the current track (handle matches) with
elapsed time under `10` seconds and retry count under `3` restarts the same
url with the retry counter incremented by one (stored as the new current
record, new handle), leaving the queue untouched rather than advancing it. -/
theorem completion_short_elapsed_retries_same_url
    (resolve : String → Option String) (h now : Nat) (s : GState) (t : Track)
    (title : String)
    (hp : s.playing = some ⟨h, CbKind.ytQueue⟩)
    (hc : s.current = some t)
    (he : now - t.startTime < 10)
    (hr : t.retryCount < 3)
    (hres : resolve t.url = some title)
    (hconn : s.connected = true) :
    (onCompletion resolve h CbKind.ytQueue now s).current
        = some ⟨t.url, title, now, t.retryCount + 1⟩ ∧
    (onCompletion resolve h CbKind.ytQueue now s).queue = s.queue ∧
    (onCompletion resolve h CbKind.ytQueue now s).playing
        = some ⟨s.nextHandle, CbKind.ytQueue⟩ :=
  onCompletion_retry_eq resolve h now s t title hp hc he hr hres hconn

/-- Witness for C4: track `A`, started at `100`, completes at `103` with
retry count `0`: the controller restarts `A` with retry count `1` and the
queue `[B]` stays put. -/
theorem completion_short_elapsed_retries_same_url_witness :
    (onCompletion resolveAll 0 CbKind.ytQueue 103 statePlayingA).current
        = some ⟨"A", "A!", 103, 1⟩ ∧
    (onCompletion resolveAll 0 CbKind.ytQueue 103 statePlayingA).queue
        = statePlayingA.queue ∧
    (onCompletion resolveAll 0 CbKind.ytQueue 103 statePlayingA).playing
        = some ⟨statePlayingA.nextHandle, CbKind.ytQueue⟩ :=
  completion_short_elapsed_retries_same_url resolveAll 0 103 statePlayingA
    trackA "A!" rfl rfl (by decide) (by decide) (by decide) rfl

/-- C5: across every sequence of controller operations, (1) the current
track's retry count never exceeds `3`; (2) whenever a track with a
different url becomes current it has retry count `0`; (3) a completion of
the current handle within the retry window restarts the same url with the
retry count incremented by exactly `1`; (4) once the retry count is `3` a
further short completion advances the queue instead of retrying a fourth
time. -/
theorem retry_count_protocol (resolve : String → Option String) :
    (∀ s, Reachable resolve s → ∀ t, s.current = some t → t.retryCount ≤ 3) ∧
    (∀ op s t', (applyOp resolve op s).current = some t' →
        (∀ t₀, s.current = some t₀ → t'.url ≠ t₀.url) → t'.retryCount = 0) ∧
    (∀ h now s t title, s.playing = some ⟨h, CbKind.ytQueue⟩ →
        s.current = some t → now - t.startTime < 10 → t.retryCount < 3 →
        resolve t.url = some title → s.connected = true →
        (onCompletion resolve h CbKind.ytQueue now s).current
          = some ⟨t.url, title, now, t.retryCount + 1⟩) ∧
    (∀ h now s t, s.playing = some ⟨h, CbKind.ytQueue⟩ →
        s.current = some t → t.retryCount = 3 → now - t.startTime < 10 →
        onCompletion resolve h CbKind.ytQueue now s =
          pnqT resolve now { s with playing := none }) := by
  refine ⟨reachable_retryLe resolve, ?_, ?_, ?_⟩
  · intro op s t' hc hdiff
    exact applyOp_fresh_zero resolve op s t' hc hdiff
  · intro h now s t title hp hc he hr hres hconn
    exact (onCompletion_retry_eq resolve h now s t title hp hc he hr hres hconn).1
  · intro h now s t hp hc hr _
    exact onCompletion_advance_eq resolve h now s t hp hc hr

/-- Witness for C5: the track made current by a fresh `play_yt` from the
initial state carries retry count `0 ≤ 3`, and a short completion of a track
at retry count `3` advances rather than retrying. -/
theorem retry_count_protocol_witness :
    (⟨"ytsearch:A", "ytsearch:A!", 100, 0⟩ : Track).retryCount ≤ 3 ∧
    onCompletion resolveAll 0 CbKind.ytQueue 103 stateRetry3 =
      pnqT resolveAll 103 { stateRetry3 with playing := none } :=
  ⟨(retry_count_protocol resolveAll).1
      (applyOp resolveAll (Op.playYt 100 "A" "u" true) initState)
      (Reachable.step _ _ Reachable.init)
      ⟨"ytsearch:A", "ytsearch:A!", 100, 0⟩ (by decide),
   (retry_count_protocol resolveAll).2.2.2 0 103 stateRetry3
      ⟨"A", "A!", 100, 3⟩ rfl rfl rfl (by decide)⟩

/-- C7: `play_yt` while something is playing appends `{source_ref,
requester}` to the pending queue and reports position = new queue length;
while idle (and the queue empty) it starts playback immediately and leaves
the queue empty. -/
theorem enqueue_appends_or_starts_immediately
    (resolve : String → Option String) (now : Nat) (q r : String)
    (s : GState) :
    (s.playing.isSome = true →
      play_yt resolve now q r true s =
        ({ s with connected := true,
                  queue := s.queue
                    ++ [QueueEntry.mk (if is_url q then q else "ytsearch:" ++ q) r] },
          Reply.addedToQueue (s.queue.length + 1))) ∧
    (∀ title, s.playing = none → s.queue = [] →
      resolve (if is_url q then q else "ytsearch:" ++ q) = some title →
      (play_yt resolve now q r true s).1.queue = [] ∧
      (play_yt resolve now q r true s).2 = Reply.nowPlayingYt title ∧
      (play_yt resolve now q r true s).1.current =
        some ⟨if is_url q then q else "ytsearch:" ++ q, title, now, 0⟩ ∧
      (play_yt resolve now q r true s).1.playing
        = some ⟨s.nextHandle, CbKind.ytQueue⟩) := by
  constructor
  · intro hp
    rw [play_yt_of_playing resolve now q r s hp]
    simp
  · intro title hp hq hres
    rw [play_yt_idle_eq resolve now q r s title hp hres]
    simp [hq]

/-- Witness for C7: enqueueing `C` while `A` plays with one entry queued
reports position `2`; a fresh `play_yt` from the initial state starts
immediately with an empty queue. -/
theorem enqueue_appends_or_starts_immediately_witness :
    play_yt resolveAll 200 "C" "v" true statePlayingA =
      ({ statePlayingA with
          connected := true,
          queue := statePlayingA.queue
            ++ [QueueEntry.mk (if is_url "C" then "C" else "ytsearch:" ++ "C") "v"] },
        Reply.addedToQueue (statePlayingA.queue.length + 1)) ∧
    (play_yt resolveAll 100 "A" "u" true initState).1.queue = [] ∧
    (play_yt resolveAll 100 "A" "u" true initState).2
        = Reply.nowPlayingYt "ytsearch:A!" :=
  ⟨(enqueue_appends_or_starts_immediately resolveAll 200 "C" "v"
      statePlayingA).1 rfl,
   ((enqueue_appends_or_starts_immediately resolveAll 100 "A" "u"
      initState).2 "ytsearch:A!" rfl rfl (by decide)).1,
   ((enqueue_appends_or_starts_immediately resolveAll 100 "A" "u"
      initState).2 "ytsearch:A!" rfl rfl (by decide)).2.1⟩

/-- C8: from every reachable session state, `stop` leaves an empty pending
queue, no current-track record, cleared presence and no active handle, and a
second `stop` immediately after changes nothing (it reports `Not connected`
and returns the same state). -/
theorem stop_clears_session_and_idempotent (resolve : String → Option String)
    (s : GState) (hs : Reachable resolve s) :
    (stopCmd s).1.queue = [] ∧ (stopCmd s).1.current = none ∧
    (stopCmd s).1.presence = none ∧ (stopCmd s).1.playing = none ∧
    stopCmd (stopCmd s).1 = ((stopCmd s).1, Reply.notConnected) := by
  have hd := reachable_discClear resolve s hs
  by_cases hcon : s.connected = true
  · have h1 : stopCmd s =
        ({ s with queue := [], current := none, presence := none,
                  playing := none, connected := false }, Reply.disconnected) := by
      simp [stopCmd, hcon]
    rw [h1]
    exact ⟨rfl, rfl, rfl, rfl, by simp [stopCmd]⟩
  · have hcon' : s.connected = false := by simpa using hcon
    obtain ⟨hq, hc, hpr, hpl⟩ := hd hcon'
    have h1 : stopCmd s = (s, Reply.notConnected) := by simp [stopCmd, hcon']
    rw [h1]
    exact ⟨hq, hc, hpr, hpl, by simp [stopCmd, hcon']⟩

/-- Witness for C8: stopping the session right after `join` from the initial
state clears everything and a second stop is a no-op. -/
theorem stop_clears_session_and_idempotent_witness :
    (stopCmd (applyOp resolveAll (Op.join true) initState)).1.queue = [] ∧
    (stopCmd (applyOp resolveAll (Op.join true) initState)).1.current = none ∧
    (stopCmd (applyOp resolveAll (Op.join true) initState)).1.presence = none ∧
    (stopCmd (applyOp resolveAll (Op.join true) initState)).1.playing = none ∧
    stopCmd (stopCmd (applyOp resolveAll (Op.join true) initState)).1 =
      ((stopCmd (applyOp resolveAll (Op.join true) initState)).1,
        Reply.notConnected) :=
  stop_clears_session_and_idempotent resolveAll
    (applyOp resolveAll (Op.join true) initState)
    (Reachable.step _ _ Reachable.init)

/-- C9: the tag search excludes candidates with an empty or missing resolved
url before selection (any returned station has a non-empty stream url), the
random choice ranges exactly over the remaining valid candidates (each valid
candidate is the outcome for its own index), and when no candidate has a
usable url the search returns no station. -/
theorem tag_search_filters_and_selects :
    ∀ (results : List RBResult) (pick : Nat),
      (∀ st, search_radio_station_by_tags results pick = some st →
          st.stream_url ≠ "") ∧
      (∀ j, j < (validResults results).length →
          search_radio_station_by_tags results j =
            some ⟨((validResults results).getD j ⟨"", ""⟩).name,
                  ((validResults results).getD j ⟨"", ""⟩).url_resolved⟩) ∧
      (search_radio_station_by_tags results pick = none ↔
          validResults results = []) := by
  intro results pick
  refine ⟨?_, ?_, ?_⟩
  · intro st hst
    by_cases h0 : results.length > 0
    · rw [search_radio_station_by_tags, if_pos h0] at hst
      by_cases hv : (validResults results).isEmpty
      · rw [if_pos hv] at hst; exact absurd hst (by simp)
      · rw [if_neg hv] at hst
        simp only [Option.some.injEq] at hst
        have hlen : 0 < (validResults results).length := by
          cases hvr : validResults results with
          | nil => rw [hvr] at hv; exact absurd rfl hv
          | cons a l => simp [hvr]
        have hlt : pick % (validResults results).length <
            (validResults results).length := Nat.mod_lt _ hlen
        rw [List.getD_eq_getElem _ _ hlt] at hst
        have hmem : (validResults results)[pick % (validResults results).length]
            ∈ validResults results := List.getElem_mem hlt
        have hok := (List.mem_filter.mp hmem).2
        simp only [ne_eq, decide_not, Bool.not_eq_true', decide_eq_false_iff_not]
          at hok
        rw [← hst]
        exact hok
    · rw [search_radio_station_by_tags, if_neg h0] at hst
      exact absurd hst (by simp)
  · intro j hj
    have hvne : validResults results ≠ [] := by
      intro hnil
      rw [hnil] at hj
      exact absurd hj (by simp)
    have h0 : results.length > 0 := by
      cases hres : results with
      | nil => rw [hres] at hvne; exact absurd rfl hvne
      | cons a l => simp
    have hvE : (validResults results).isEmpty = false := by
      cases hvr : validResults results with
      | nil => exact absurd hvr hvne
      | cons a l => rfl
    rw [search_radio_station_by_tags, if_pos h0]
    simp only [hvE, Bool.false_eq_true, if_false]
    rw [Nat.mod_eq_of_lt hj]
  · constructor
    · intro hnone
      by_cases h0 : results.length > 0
      · rw [search_radio_station_by_tags, if_pos h0] at hnone
        by_cases hv : (validResults results).isEmpty
        · exact List.isEmpty_iff.mp hv
        · rw [if_neg hv] at hnone
          exact absurd hnone (by simp)
      · have : results = [] := by
          cases hres : results with
          | nil => rfl
          | cons a l => rw [hres] at h0; exact absurd (by simp) h0
        rw [this]
        rfl
    · intro hnil
      have hvE : (validResults results).isEmpty = true := by
        rw [hnil]; rfl
      by_cases h0 : results.length > 0
      · rw [search_radio_station_by_tags, if_pos h0]
        simp [hvE]
      · rw [search_radio_station_by_tags, if_neg h0]

/-- Witness for C9: among candidates `GoodFM` (usable url) and `BadFM`
(empty url), only `GoodFM` is selectable and the returned station has a
non-empty url. -/
theorem tag_search_filters_and_selects_witness :
    search_radio_station_by_tags [⟨"GoodFM", "http://g"⟩, ⟨"BadFM", ""⟩] 0 =
      some ⟨"GoodFM", "http://g"⟩ ∧
    (⟨"GoodFM", "http://g"⟩ : RadioStation).stream_url ≠ "" :=
  ⟨by decide,
   (tag_search_filters_and_selects [⟨"GoodFM", "http://g"⟩, ⟨"BadFM", ""⟩] 0).1
      ⟨"GoodFM", "http://g"⟩ (by decide)⟩

/-- C10: the radio path is frame-disjoint from the YouTube queue state:
`play_stream` modifies neither the per-guild current-track record nor the
pending queue, and the completion callback it installs (`radioLog`) performs
no state transition on record, queue or presence — so a radio stream's
completion never triggers a retry or an advance, and a current-track record
left over from an earlier YouTube play survives starting a radio station. -/
theorem radio_play_frame (resolve : String → Option String)
    (stationUrl : String) (probeOk : Bool) (h now : Nat) (s : GState) :
    (play_stream stationUrl probeOk s).current = s.current ∧
    (play_stream stationUrl probeOk s).queue = s.queue ∧
    (onCompletion resolve h CbKind.radioLog now s).current = s.current ∧
    (onCompletion resolve h CbKind.radioLog now s).queue = s.queue ∧
    (onCompletion resolve h CbKind.radioLog now s).presence = s.presence := by
  refine ⟨(play_stream_frame stationUrl probeOk s).1,
          (play_stream_frame stationUrl probeOk s).2.1, ?_, ?_, ?_⟩ <;>
    (rw [onCompletion.eq_def]
     cases s.playing with
     | none => rfl
     | some p =>
       simp only
       split <;> rfl)

end Streambot
